import Mathlib

/-!
Verification of the PCM_for_QUIC repository (a simplified QUIC-like
transport in Python) against its natural-language specification.

The Python source is shallowly embedded: byte strings become `List Nat`
(each entry one octet), Python `int` becomes `Int`/`Nat`, Python `float`
state that the claims depend on becomes `ℚ` (with the one loss-relevant
IEEE-754 binary64 multiplication modelled exactly), fallible code returns
`Except String`.  Every definition is translated from the corresponding
function of the source, file and line ranges noted in the doc comments.
-/

namespace PCM

/-- Octet strings (`bytes` in the Python source); each entry is one octet. -/
abbrev Bytes := List Nat

/-- Network addresses, Python `tuple[str, int]` of (ip, port). -/
abbrev Addr := String × Nat

/-- Python `int.to_bytes(n, "big")`: big-endian, fixed width `n`.
The source only calls it on values that fit (otherwise Python raises
`OverflowError`); theorems restrict to that domain via hypotheses. -/
def natToBytesBE : Nat → Nat → Bytes
  | 0, _ => []
  | n + 1, v => natToBytesBE n (v / 256) ++ [v % 256]

/-- Python `int.from_bytes(bs, "big")`; accepts any length, `b"" ↦ 0`,
exactly as the source relies on when a slice is shorter than expected. -/
def fromBytesBE (bs : Bytes) : Nat := bs.foldl (fun a b => a * 256 + b) 0

/-- Python slice `data[start:stop]` (clamping, never failing). -/
def pySlice (data : Bytes) (start stop : Nat) : Bytes := (data.take stop).drop start

/-- Python index read `data[i]`; callers guard `i` in range themselves
(out of range raises `IndexError` at the call sites that model it). -/
def byteAt (data : Bytes) (i : Nat) : Nat := data.getD i 0

theorem length_natToBytesBE (n v : Nat) : (natToBytesBE n v).length = n := by
  induction n generalizing v with
  | zero => rfl
  | succ k ih => simp [natToBytesBE, ih]

theorem fromBytesBE_append_singleton (xs : Bytes) (b : Nat) :
    fromBytesBE (xs ++ [b]) = fromBytesBE xs * 256 + b := by
  simp [fromBytesBE, List.foldl_append]

theorem fromBytesBE_natToBytesBE (n v : Nat) (h : v < 256 ^ n) :
    fromBytesBE (natToBytesBE n v) = v := by
  induction n generalizing v with
  | zero =>
    simp [pow_zero] at h
    simp [natToBytesBE, fromBytesBE]
    omega
  | succ k ih =>
    rw [natToBytesBE, fromBytesBE_append_singleton, ih (v / 256) ?_]
    · omega
    · have : 256 ^ (k + 1) = 256 ^ k * 256 := by ring
      rw [this] at h
      exact Nat.div_lt_of_lt_mul (by omega)

/-! ## Frame codec — `src/packet/frame.py`

`FrameType` wire tags: PADDING 0x00, NEW_CONNECTION_ID 0x18,
PATH_CHALLENGE 0x1a, PATH_RESPONSE 0x1b, FILE_REQUEST 0x1c,
FILE_RESPONSE 0x1d, FILE_DATA 0x1e.  The source defines concrete frame
classes (each with a `to_bytes`) for every tag except PADDING, for which
no class and no encoder exist; the base `Frame` class has no `to_bytes`.
A Python `str` filename is represented by its UTF-8 encoding; the
source's `encode("utf-8")`/`decode("utf-8")` pair is the identity on
those byte strings. -/
inductive Frame where
  | pathChallenge (data : Bytes)
  | pathResponse (data : Bytes)
  | newConnectionId (seq : Nat) (cid : Bytes)
  | fileRequest (filename : Bytes)
  | fileResponse (fileSize chunkSize : Nat)
  | fileData (chunkId : Nat) (data : Bytes)
  deriving DecidableEq, Repr

/-- The `to_bytes` methods of `src/packet/frame.py` (lines 31, 45, 59-66,
77-79, 92-93, 106-107). -/
def Frame.toBytes : Frame → Bytes
  | .pathChallenge d => 0x1a :: d
  | .pathResponse d => 0x1b :: d
  | .newConnectionId seq cid => 0x18 :: (natToBytesBE 2 seq ++ cid.length :: cid)
  | .fileRequest name => 0x1c :: (natToBytesBE 2 name.length ++ name)
  | .fileResponse fs cs => 0x1d :: (natToBytesBE 8 fs ++ natToBytesBE 4 cs)
  | .fileData cid d => 0x1e :: (natToBytesBE 4 cid ++ natToBytesBE 4 d.length ++ d)

/-- A continuation byte of a UTF-8 sequence. -/
def utf8Cont (b : Nat) : Bool := 0x80 ≤ b && b ≤ 0xbf

/-- Constraint on the byte immediately following a UTF-8 lead byte:
0xe0 excludes overlong encodings, 0xed excludes surrogates, 0xf0
excludes overlongs, 0xf4 caps at U+10FFFF; any other lead takes a plain
continuation byte (`lead = 0` marks later continuation positions). -/
def utf8Second (lead b1 : Nat) : Bool :=
  if lead = 0xe0 then 0xa0 ≤ b1 && b1 ≤ 0xbf
  else if lead = 0xed then 0x80 ≤ b1 && b1 ≤ 0x9f
  else if lead = 0xf0 then 0x90 ≤ b1 && b1 ≤ 0xbf
  else if lead = 0xf4 then 0x80 ≤ b1 && b1 ≤ 0x8f
  else utf8Cont b1

mutual

/-- Strict UTF-8 validity (RFC 3629, as enforced by Python's default
`decode("utf-8")`): rejects truncated sequences, stray continuation
bytes, overlong encodings, surrogates and code points above U+10FFFF.
`bytes.decode("utf-8")` succeeds exactly on the byte strings this
accepts, and every `str.encode("utf-8")` output satisfies it. -/
def utf8Valid : Bytes → Bool
  | [] => true
  | b :: rest =>
    if b ≤ 0x7f then utf8Valid rest
    else if 0xc2 ≤ b ∧ b ≤ 0xdf then utf8Tail b 1 rest
    else if 0xe0 ≤ b ∧ b ≤ 0xef then utf8Tail b 2 rest
    else if 0xf0 ≤ b ∧ b ≤ 0xf4 then utf8Tail b 3 rest
    else false
  termination_by bs => bs.length
  decreasing_by all_goals (simp only [List.length_cons]; omega)

/-- Consume `k ≥ 1` continuation bytes of a sequence led by `lead`. -/
def utf8Tail : Nat → Nat → Bytes → Bool
  | _, _, [] => false
  | _, 0, _ :: _ => false
  | lead, 1, c :: rest => utf8Second lead c && utf8Valid rest
  | lead, k + 2, c :: rest => utf8Second lead c && utf8Tail 0 (k + 1) rest
  termination_by _ _ bs => bs.length
  decreasing_by all_goals (simp only [List.length_cons]; omega)

end

/-- Constructor-level well-formedness of a frame object in the source:
the PATH_CHALLENGE/PATH_RESPONSE constructors reject data that is not 8
bytes, the remaining numeric fields must fit their fixed-width
`to_bytes` calls (Python raises `OverflowError` otherwise), and a
FILE_REQUEST filename — here the UTF-8 encoding of the Python `str` —
is necessarily valid UTF-8. -/
def Frame.wf : Frame → Prop
  | .pathChallenge d => d.length = 8
  | .pathResponse d => d.length = 8
  | .newConnectionId seq cid => seq < 256 ^ 2 ∧ cid.length < 256
  | .fileRequest name => name.length < 256 ^ 2 ∧ utf8Valid name = true
  | .fileResponse fs cs => fs < 256 ^ 8 ∧ cs < 256 ^ 4
  | .fileData cid d => cid < 256 ^ 4 ∧ d.length < 256 ^ 4

instance : DecidablePred Frame.wf := by
  intro f
  cases f <;> simp [Frame.wf] <;> infer_instance

/-- `PacketProcessor.parse_frames` — `src/packet/packet_processor.py`
lines 12-58.  The `while pos < len(data)` loop reads one tag byte, then:
FILE_REQUEST (0x1c) reads a 2-byte length, slices the filename and
calls `.decode("utf-8")` on it, which raises `UnicodeDecodeError` when
the (possibly clamped) slice is not valid UTF-8;
FILE_RESPONSE (0x1d) reads 8+4 bytes; FILE_DATA (0x1e) reads 4+4 bytes
and slices the chunk; PATH_CHALLENGE (0x1a) and PATH_RESPONSE (0x1b)
raise `ValueError` when fewer than 8 bytes remain, else slice 8 bytes.
Any other tag byte (including PADDING 0x00 and NEW_CONNECTION_ID 0x18,
which have no branch) is silently skipped: the loop consumes only the
tag byte and appends nothing.  Python slices clamp, and
`int.from_bytes` accepts short slices, exactly as modelled here. -/
def parseFrames : Bytes → Except String (List Frame)
  | [] => .ok []
  | t :: rest =>
    if t = 0x1c then
      if utf8Valid ((rest.drop 2).take (fromBytesBE (rest.take 2))) then
        match parseFrames ((rest.drop 2).drop (fromBytesBE (rest.take 2))) with
        | .ok fs =>
            .ok (.fileRequest ((rest.drop 2).take (fromBytesBE (rest.take 2))) :: fs)
        | .error e => .error e
      else .error "UnicodeDecodeError"
    else if t = 0x1d then
      match parseFrames (rest.drop 12) with
      | .ok fs =>
          .ok (.fileResponse (fromBytesBE (rest.take 8))
                (fromBytesBE ((rest.drop 8).take 4)) :: fs)
      | .error e => .error e
    else if t = 0x1e then
      match parseFrames (rest.drop (8 + fromBytesBE ((rest.drop 4).take 4))) with
      | .ok fs =>
          .ok (.fileData (fromBytesBE (rest.take 4))
                ((rest.drop 8).take (fromBytesBE ((rest.drop 4).take 4))) :: fs)
      | .error e => .error e
    else if t = 0x1a then
      if rest.length < 8 then .error "PATH_CHALLENGE frame too short"
      else
        match parseFrames (rest.drop 8) with
        | .ok fs => .ok (.pathChallenge (rest.take 8) :: fs)
        | .error e => .error e
    else if t = 0x1b then
      if rest.length < 8 then .error "PATH_RESPONSE frame too short"
      else
        match parseFrames (rest.drop 8) with
        | .ok fs => .ok (.pathResponse (rest.take 8) :: fs)
        | .error e => .error e
    else parseFrames rest
  termination_by bs => bs.length
  decreasing_by all_goals (simp only [List.length_drop, List.length_cons]; omega)

/-! ## Header codec — `src/packet/header.py` -/

/-- `PacketType` (header.py lines 9-13): INITIAL 0x00, HANDSHAKE 0x02,
SHORT 0x40. -/
inductive PacketType where
  | initial
  | handshake
  | short
  deriving DecidableEq, Repr

/-- `PacketType(b)` — the enum constructor raises `ValueError` for a
byte outside {0x00, 0x02, 0x40}. -/
def PacketType.ofByte (b : Nat) : Except String PacketType :=
  if b = 0x00 then .ok .initial
  else if b = 0x02 then .ok .handshake
  else if b = 0x40 then .ok .short
  else .error "not a valid PacketType"

structure Header where
  packetType : PacketType
  dcid : Bytes
  scid : Bytes
  deriving DecidableEq, Repr

/-- `Header.parse` — header.py lines 30-51.  Checks only
`len(data) < 2`; the DCID slice clamps silently; reading the SCID
length byte `data[pos]` raises `IndexError` when `pos` is past the end;
the SCID slice again clamps silently, so an SCID length field larger
than the remaining buffer is NOT an error and yields a truncated SCID
together with a `consumed` count past the end of the buffer.  No bound
of 20 on either CID length appears anywhere in the function. -/
def Header.parse (data : Bytes) : Except String (Header × Nat) :=
  if data.length < 2 then .error "data too short"
  else
    match PacketType.ofByte (byteAt data 0) with
    | .error e => .error e
    | .ok pt =>
      let dcidLen := byteAt data 1
      let pos := 2 + dcidLen
      if pos < data.length then
        let scidLen := byteAt data pos
        .ok (⟨pt, pySlice data 2 pos, pySlice data (pos + 1) (pos + 1 + scidLen)⟩,
             pos + 1 + scidLen)
      else .error "index out of range"

/-! ## Round-trip and error-behavior theorems for the codecs (C2, C3, C4) -/

theorem take_length_append (a b : Bytes) (n : Nat) (h : a.length = n) :
    (a ++ b).take n = a := by
  subst h; exact List.take_left a b

theorem drop_length_append (a b : Bytes) (n : Nat) (h : a.length = n) :
    (a ++ b).drop n = b := by
  subst h; exact List.drop_left a b

theorem take_of_length_eq (a : Bytes) (n : Nat) (h : a.length = n) : a.take n = a := by
  subst h; exact List.take_length a

theorem drop_of_length_eq (a : Bytes) (n : Nat) (h : a.length = n) : a.drop n = [] := by
  subst h; exact List.drop_length a

/-- C2 counterexample.  The claim includes NEW_CONNECTION_ID among the
round-tripping frame types, but `parse_frames` has no branch for tag
0x18: the tag byte is silently skipped, the three body bytes are then
read as PADDING-like unknown tags and also skipped, and the parse
returns the empty list instead of `[F]`.  (For PADDING the claim is not
even executable: the source defines no PADDING frame class and the base
`Frame` class has no `to_bytes`.) -/
theorem c2_roundtrip_cex :
    (Frame.newConnectionId 0 []).toBytes = [0x18, 0x00, 0x00, 0x00] ∧
    parseFrames ((Frame.newConnectionId 0 []).toBytes) = .ok [] := by
  constructor
  · rfl
  · simp [parseFrames, Frame.toBytes, natToBytesBE]

/-- C2 amended: encoding then parsing returns `[F]` for every
well-formed frame of the five types that `parse_frames` actually
handles (PATH_CHALLENGE, PATH_RESPONSE, FILE_REQUEST, FILE_RESPONSE,
FILE_DATA); NEW_CONNECTION_ID does not round-trip (see the
counterexample) and PADDING has no encoder at all. -/
theorem c2_roundtrip_amended (F : Frame) (hwf : F.wf)
    (hnc : ∀ seq cid, F ≠ .newConnectionId seq cid) :
    parseFrames F.toBytes = .ok [F] := by
  cases F with
  | pathChallenge d =>
    have h8 : d.length = 8 := hwf
    have hnot : ¬ d.length < 8 := by omega
    have htake := take_of_length_eq d 8 h8
    have hdrop := drop_of_length_eq d 8 h8
    simp [Frame.toBytes, parseFrames, hnot, htake, hdrop]
  | pathResponse d =>
    have h8 : d.length = 8 := hwf
    have hnot : ¬ d.length < 8 := by omega
    have htake := take_of_length_eq d 8 h8
    have hdrop := drop_of_length_eq d 8 h8
    simp [Frame.toBytes, parseFrames, hnot, htake, hdrop]
  | newConnectionId seq cid => exact absurd rfl (hnc seq cid)
  | fileRequest name =>
    obtain ⟨hlen, hutf⟩ : name.length < 256 ^ 2 ∧ utf8Valid name = true := hwf
    have htake := take_length_append (natToBytesBE 2 name.length) name 2
      (length_natToBytesBE 2 _)
    have hdrop := drop_length_append (natToBytesBE 2 name.length) name 2
      (length_natToBytesBE 2 _)
    simp [Frame.toBytes, parseFrames, htake, hdrop, hutf,
      fromBytesBE_natToBytesBE 2 _ hlen, List.take_length, List.drop_length]
  | fileResponse fs cs =>
    obtain ⟨hfs, hcs⟩ := hwf
    have htake := take_length_append (natToBytesBE 8 fs) (natToBytesBE 4 cs) 8
      (length_natToBytesBE 8 _)
    have hdrop := drop_length_append (natToBytesBE 8 fs) (natToBytesBE 4 cs) 8
      (length_natToBytesBE 8 _)
    have htake4 := take_of_length_eq (natToBytesBE 4 cs) 4 (length_natToBytesBE 4 _)
    have hdrop12 : (natToBytesBE 8 fs ++ natToBytesBE 4 cs).drop 12 = [] :=
      drop_of_length_eq _ 12 (by simp [length_natToBytesBE])
    simp [Frame.toBytes, parseFrames, htake, hdrop, htake4, hdrop12,
      fromBytesBE_natToBytesBE 8 _ hfs, fromBytesBE_natToBytesBE 4 _ hcs]
  | fileData cid d =>
    obtain ⟨hcid, hd⟩ := hwf
    have htake4 := take_length_append (natToBytesBE 4 cid)
      (natToBytesBE 4 d.length ++ d) 4 (length_natToBytesBE 4 _)
    have hdrop4 := drop_length_append (natToBytesBE 4 cid)
      (natToBytesBE 4 d.length ++ d) 4 (length_natToBytesBE 4 _)
    have htake4b := take_length_append (natToBytesBE 4 d.length) d 4
      (length_natToBytesBE 4 _)
    have hdrop8 : (natToBytesBE 4 cid ++ (natToBytesBE 4 d.length ++ d)).drop 8 = d := by
      have := drop_length_append (natToBytesBE 4 cid ++ natToBytesBE 4 d.length) d 8
        (by simp [length_natToBytesBE])
      rwa [List.append_assoc] at this
    have hdropAll :
        (natToBytesBE 4 cid ++ (natToBytesBE 4 d.length ++ d)).drop (8 + d.length) = [] :=
      drop_of_length_eq _ _ (by simp [length_natToBytesBE]; omega)
    have htaked := take_of_length_eq d d.length rfl
    simp [Frame.toBytes, parseFrames, htake4, hdrop4, htake4b, hdrop8, hdropAll,
      htaked, fromBytesBE_natToBytesBE 4 _ hcid, fromBytesBE_natToBytesBE 4 _ hd]

/-- C2 amended, witnessed at a concrete PATH_CHALLENGE frame. -/
theorem c2_roundtrip_amended_witness :
    parseFrames (Frame.pathChallenge [1, 2, 3, 4, 5, 6, 7, 8]).toBytes =
      .ok [Frame.pathChallenge [1, 2, 3, 4, 5, 6, 7, 8]] :=
  c2_roundtrip_amended _ (by simp [Frame.wf]) (by intro seq cid; simp)

/-- C3 counterexample.  First conjunct: the buffer `[0x00, 0x00, 0x05]`
declares an SCID length of 5 with 0 bytes remaining, yet `Header.parse`
succeeds with an empty (truncated) SCID and a consumed count of 8, past
the end of the buffer — the claim demanded an error whenever a CID
length field exceeds the remaining buffer.  Second conjunct: a DCID
length of 25 (> 20) is accepted — the claimed bound of 20 appears
nowhere in the code. -/
theorem c3_header_cex :
    Header.parse [0x00, 0x00, 0x05] = .ok (⟨.initial, [], []⟩, 8) ∧
    Header.parse [0x00, 25, 7, 7, 7, 7, 7, 7, 7, 7, 7, 7, 7, 7, 7, 7, 7, 7, 7,
        7, 7, 7, 7, 7, 7, 7, 7, 0x00] =
      .ok (⟨.initial, [7, 7, 7, 7, 7, 7, 7, 7, 7, 7, 7, 7, 7, 7, 7, 7, 7, 7, 7,
        7, 7, 7, 7, 7, 7], []⟩, 28) := by
  constructor <;> simp [Header.parse, PacketType.ofByte, pySlice, byteAt]

/-- C3 amended: `Header.parse` errors exactly when the buffer is
shorter than 2 bytes, or the first byte is not one of the three packet
types {0x00, 0x02, 0x40} (`ValueError` from the enum), or position
`2 + dcid_len` is at or past the end of the buffer (`IndexError`
reading the SCID length byte).  On success the DCID and SCID are the
(possibly silently truncated) Python slices; an SCID length field
larger than the remaining buffer is not detected, and no bound of 20 is
enforced on either CID length. -/
theorem c3_header_parse_amended (data : Bytes) :
    ((∃ h n, Header.parse data = .ok (h, n)) ↔
      2 ≤ data.length ∧
      (byteAt data 0 = 0x00 ∨ byteAt data 0 = 0x02 ∨ byteAt data 0 = 0x40) ∧
      2 + byteAt data 1 < data.length) ∧
    (∀ h n, Header.parse data = .ok (h, n) →
      h.dcid = pySlice data 2 (2 + byteAt data 1) ∧
      h.scid = pySlice data (2 + byteAt data 1 + 1)
        (2 + byteAt data 1 + 1 + byteAt data (2 + byteAt data 1)) ∧
      n = 2 + byteAt data 1 + 1 + byteAt data (2 + byteAt data 1)) := by
  unfold Header.parse PacketType.ofByte
  by_cases hlen : data.length < 2
  · simp [hlen]
  · simp only [hlen, if_false]
    by_cases h0 : byteAt data 0 = 0x00
    · simp only [h0, if_true]
      by_cases hpos : 2 + byteAt data 1 < data.length
      · simp [hpos]; omega
      · simp [hpos]
    · simp only [h0, if_false]
      by_cases h2 : byteAt data 0 = 0x02
      · simp only [h2, if_true]
        by_cases hpos : 2 + byteAt data 1 < data.length
        · simp [hpos]; omega
        · simp [hpos]
      · simp only [h2, if_false]
        by_cases h40 : byteAt data 0 = 0x40
        · simp only [h40, if_true]
          by_cases hpos : 2 + byteAt data 1 < data.length
          · simp [hpos]; omega
          · simp [hpos]
        · simp [h0, h2, h40]

/-- C3 amended, witnessed on a concrete well-formed short-header
buffer. -/
theorem c3_header_parse_amended_witness :
    (∃ h n, Header.parse [0x40, 1, 7, 2, 9, 9] = .ok (h, n)) :=
  (c3_header_parse_amended [0x40, 1, 7, 2, 9, 9]).1.mpr (by simp [byteAt])

/-- C4 counterexample.  `parse_frames [0x55]` returns `ok []`: the tag
0x55 is outside the enumeration, yet no UnknownFrame error is raised —
the byte is silently skipped.  `parse_frames [0x1d]` declares a
FILE_RESPONSE whose fixed 12-byte body exceeds the 0 remaining bytes,
yet instead of a ShortFrame error the parser fabricates
`FILE_RESPONSE(0, 0)` from the empty slices. -/
theorem c4_parse_frames_cex :
    parseFrames [0x55] = .ok [] ∧
    parseFrames [0x1d] = .ok [.fileResponse 0 0] := by
  constructor <;> simp [parseFrames, fromBytesBE]

/-- C4 amended: the only errors `parse_frames` ever raises are the
too-short `ValueError`s for PATH_CHALLENGE and PATH_RESPONSE bodies and
the `UnicodeDecodeError` from `.decode("utf-8")` on a FILE_REQUEST
filename slice that is not valid UTF-8 (e.g. `[0x1c, 0x00, 0x01, 0xff]`,
third conjunct); every tag byte outside the five handled tags
(including PADDING 0x00 and NEW_CONNECTION_ID 0x18) is silently skipped
with no frame emitted and no UnknownFrame error, and declared lengths of
FILE_* frames that overrun the buffer are silently truncated rather than
rejected with ShortFrame. -/
theorem c4_parse_frames_amended :
    (∀ data e, parseFrames data = .error e →
      e = "PATH_CHALLENGE frame too short" ∨
      e = "PATH_RESPONSE frame too short" ∨ e = "UnicodeDecodeError") ∧
    (∀ t rest, t ≠ 0x1a → t ≠ 0x1b → t ≠ 0x1c → t ≠ 0x1d → t ≠ 0x1e →
      parseFrames (t :: rest) = parseFrames rest) ∧
    parseFrames [0x1c, 0x00, 0x01, 0xff] = .error "UnicodeDecodeError" := by
  refine ⟨?_, ?_, ?_⟩
  · intro data
    induction data using parseFrames.induct
    all_goals intro e he
    all_goals rw [parseFrames] at he
    all_goals repeat' split at he
    all_goals simp_all
  · intro t rest h1a h1b h1c h1d h1e
    rw [parseFrames]
    simp [h1a, h1b, h1c, h1d, h1e]
  · have hval : utf8Valid [0xff] = false := by
      rw [utf8Valid]
      norm_num
    simp [parseFrames, fromBytesBE, hval]

/-- C4 amended, witnessed: the PATH_CHALLENGE too-short error is one of
the three permitted errors, and tag 0x33 is skipped. -/
theorem c4_parse_frames_amended_witness :
    (parseFrames [0x1a, 1] = .error "PATH_CHALLENGE frame too short" →
      "PATH_CHALLENGE frame too short" = "PATH_CHALLENGE frame too short" ∨
      "PATH_CHALLENGE frame too short" = "PATH_RESPONSE frame too short" ∨
      "PATH_CHALLENGE frame too short" = "UnicodeDecodeError") ∧
    parseFrames [0x33, 0x55] = parseFrames [0x55] :=
  ⟨c4_parse_frames_amended.1 [0x1a, 1] _,
   c4_parse_frames_amended.2.1 0x33 [0x55] (by decide) (by decide) (by decide)
     (by decide) (by decide)⟩

/-! ## CUBIC congestion controller — `src/congestion/cubic.py`

Python `float` values are carried as exact rationals.  The single float
operation whose rounding is observable in a claim is the product
`self.cwnd * self.BETA_CUBIC` inside `on_packet_lost`: it is modelled
bit-exactly as IEEE-754 binary64 round-to-nearest-even (`roundDouble`
below).  The CUBIC growth value `w_cubic` computed in `_cubic_update`
involves a floating-point cube root, so it enters the model as a
universally quantified oracle argument; the code clamps it into
`[MIN_WINDOW, MAX_WINDOW]` before use, which is all the claims need.
The `rtt_estimate` EWMA (constants 0.8/0.2) feeds no claim and is kept
in exact rational arithmetic. -/

/-- The IEEE-754 binary64 value nearest to 0.7 (`BETA_CUBIC`):
`0.7 * 2^52 = 3152519739159347.2`, rounded to 3152519739159347. -/
def d07 : ℚ := 3152519739159347 / 2 ^ 52

/-- `⌊log2 x⌋` for `x` in the modelled domain `[1, 1024)`; the products
`w * d07` for window values `2 ≤ w ≤ 1000` all lie in `[1.39, 700.1]`. -/
def expFor (x : ℚ) : ℕ :=
  if x < 2 then 0
  else if x < 4 then 1
  else if x < 8 then 2
  else if x < 16 then 3
  else if x < 32 then 4
  else if x < 64 then 5
  else if x < 128 then 6
  else if x < 256 then 7
  else if x < 512 then 8
  else 9

/-- Scale factor that brings `x ∈ [2^e, 2^(e+1))` onto the binary64
significand grid: representable values there are the multiples of
`2^(e-52)`. -/
def rdShift (x : ℚ) : ℕ := 52 - expFor x

def rdScaled (x : ℚ) : ℚ := x * 2 ^ rdShift x

/-- The significand chosen by round-to-nearest, ties to even. -/
def rdMantissa (x : ℚ) : ℤ :=
  if rdScaled x - ⌊rdScaled x⌋ < 1 / 2 then ⌊rdScaled x⌋
  else if 1 / 2 < rdScaled x - ⌊rdScaled x⌋ then ⌊rdScaled x⌋ + 1
  else if 2 ∣ ⌊rdScaled x⌋ then ⌊rdScaled x⌋ else ⌊rdScaled x⌋ + 1

/-- Round a positive rational in `[1, 1024)` to the nearest IEEE-754
binary64 value (53-bit significand, ties to even); this is the value a
Python float multiplication produces for results in that range. -/
def roundDouble (x : ℚ) : ℚ := (rdMantissa x : ℚ) / 2 ^ rdShift x

/-- Python `int(q)` for the nonnegative floats the controller produces
(truncation towards zero = floor). -/
def pyInt (q : ℚ) : ℤ := ⌊q⌋

/-- The exact result of Python `w * 0.7` for an integer window `w`
(exact in the modelled domain `2 ≤ w ≤ 1462`). -/
def pyMul07 (w : ℤ) : ℚ := roundDouble ((w : ℚ) * d07)

/-- `CongestionState` (cubic.py lines 9-13). -/
inductive CongestionState where
  | slowStart
  | congestionAvoidance
  | recovery
  deriving DecidableEq, Repr

/-- The mutable fields of `CubicCongestionControl` (cubic.py lines
35-53) that the claims range over.  Window quantities are Python ints;
`in_flight` may go negative (the code decrements without a check), so
it is an `Int`. -/
structure CubicState where
  cwnd : ℤ
  ssthresh : ℤ
  state : CongestionState
  lastCongestionTime : ℚ
  wMax : ℤ
  lastUpdateTime : ℚ
  rttEstimate : ℚ
  inFlight : ℤ
  deriving DecidableEq, Repr

/-- `CubicCongestionControl.__init__` (cubic.py lines 35-53):
cwnd = INITIAL_WINDOW = 10, ssthresh = SLOW_START_THRESHOLD = 50,
state = SLOW_START, last_congestion_time = 0, w_max = 0,
rtt_estimate = 100, in_flight = 0; `last_update_time = time.time()` is
the construction-time clock value `t0`. -/
def cubicInit (t0 : ℚ) : CubicState :=
  { cwnd := 10, ssthresh := 50, state := .slowStart, lastCongestionTime := 0,
    wMax := 0, lastUpdateTime := t0, rttEstimate := 100, inFlight := 0 }

/-- `_cubic_update` (cubic.py lines 106-130).  `wCubicRaw` is the float
value `C*(t-K)^3 + w_max` whose cube-root computation is oracled; the
code clamps it to `[MIN_WINDOW, MAX_WINDOW] = [2, 1000]` and raises
`cwnd` to `min(MAX_WINDOW, int(w_cubic))` only if the clamped value
exceeds the current `cwnd`. -/
def cubicUpdate (s : CubicState) (now : ℚ) (wCubicRaw : ℚ) : CubicState :=
  if now - s.lastCongestionTime < 1 / 1000 then s
  else if (s.cwnd : ℚ) < max 2 (min 1000 wCubicRaw) then
    { s with cwnd := min 1000 (pyInt (max 2 (min 1000 wCubicRaw))) }
  else s

/-- `on_packet_sent` (cubic.py lines 55-57). -/
def onPacketSent (s : CubicState) : CubicState :=
  { s with inFlight := s.inFlight + 1 }

/-- The three field updates at the top of `on_packet_acked` (cubic.py
lines 61-66): decrement `in_flight`, fold the RTT sample into the
simple EWMA `0.8·est + 0.2·rtt`, record `last_update_time`.  None of
these fields affects the state dispatch below, so `on_packet_acked`
matches on `s.state = (ackBase …).state`. -/
def ackBase (s : CubicState) (rtt now : ℚ) : CubicState :=
  { s with inFlight := s.inFlight - 1,
           rttEstimate := 8 / 10 * s.rttEstimate + 2 / 10 * rtt,
           lastUpdateTime := now }

/-- `on_packet_acked` (cubic.py lines 59-89).  `rtt` is the sample
passed in, `now` the clock reading, `wCubicRaw` the oracled CUBIC float
(used only in the CONGESTION_AVOIDANCE / RECOVERY states).  In
SLOW_START the window is incremented and the state advances to
CONGESTION_AVOIDANCE once `cwnd ≥ ssthresh` (checked after the
increment); in RECOVERY the CUBIC update runs and the state returns to
CONGESTION_AVOIDANCE once `in_flight ≤ cwnd`. -/
def onPacketAcked (s : CubicState) (rtt now wCubicRaw : ℚ) : CubicState :=
  match s.state with
  | .slowStart =>
    if (ackBase s rtt now).ssthresh ≤ (ackBase s rtt now).cwnd + 1 then
      { ackBase s rtt now with cwnd := (ackBase s rtt now).cwnd + 1,
                               state := .congestionAvoidance }
    else { ackBase s rtt now with cwnd := (ackBase s rtt now).cwnd + 1 }
  | .congestionAvoidance => cubicUpdate (ackBase s rtt now) now wCubicRaw
  | .recovery =>
    if (cubicUpdate (ackBase s rtt now) now wCubicRaw).inFlight ≤
        (cubicUpdate (ackBase s rtt now) now wCubicRaw).cwnd then
      { cubicUpdate (ackBase s rtt now) now wCubicRaw with
          state := .congestionAvoidance }
    else cubicUpdate (ackBase s rtt now) now wCubicRaw

/-- `on_packet_lost` (cubic.py lines 91-104): `w_max ← cwnd`;
`cwnd ← max(MIN_WINDOW, int(cwnd * BETA_CUBIC))` with the product
computed in binary64; `ssthresh ← cwnd`; state ← RECOVERY;
`last_congestion_time ← time.time()`. -/
def onPacketLost (s : CubicState) (now : ℚ) : CubicState :=
  { s with wMax := s.cwnd,
           cwnd := max 2 (pyInt (pyMul07 s.cwnd)),
           ssthresh := max 2 (pyInt (pyMul07 s.cwnd)),
           state := .recovery,
           lastCongestionTime := now }

/-- One controller call; `sent`/`acked`/`lost` carry the clock readings
and float oracles of that call. -/
inductive CubicEvent where
  | sent
  | acked (rtt now wCubicRaw : ℚ)
  | lost (now : ℚ)

def cubicStep (s : CubicState) : CubicEvent → CubicState
  | .sent => onPacketSent s
  | .acked rtt now wRaw => onPacketAcked s rtt now wRaw
  | .lost now => onPacketLost s now

/-! ## Rounding facts about the binary64 model, and C5/C6 -/

theorem expFor_le_nine (x : ℚ) : expFor x ≤ 9 := by
  unfold expFor
  split_ifs <;> omega

theorem rdShift_ge (x : ℚ) : 43 ≤ rdShift x := by
  have := expFor_le_nine x
  unfold rdShift
  omega

theorem rdMantissa_close (x : ℚ) : |(rdMantissa x : ℚ) - rdScaled x| ≤ 1 / 2 := by
  have hfl : (⌊rdScaled x⌋ : ℚ) ≤ rdScaled x := Int.floor_le _
  have hfu : rdScaled x < ⌊rdScaled x⌋ + 1 := Int.lt_floor_add_one _
  unfold rdMantissa
  split_ifs with h1 h2 h3
  · rw [abs_of_nonpos (by linarith)]; linarith
  · push_cast
    rw [abs_of_nonneg (by linarith)]; linarith
  · rw [abs_of_nonpos (by linarith)]; linarith
  · push_cast
    rw [abs_of_nonneg (by linarith)]; linarith

theorem roundDouble_sub_le (x : ℚ) : |roundDouble x - x| ≤ 1 / 2 ^ 44 := by
  have hsh := rdShift_ge x
  have h2 : (0 : ℚ) < 2 ^ rdShift x := by positivity
  have hm := rdMantissa_close x
  have hdiff : roundDouble x - x = ((rdMantissa x : ℚ) - rdScaled x) / 2 ^ rdShift x := by
    rw [roundDouble, rdScaled]
    field_simp
    ring
  rw [hdiff, abs_div, abs_of_pos h2]
  have h44 : (2 : ℚ) ^ 43 ≤ 2 ^ rdShift x := pow_le_pow_right₀ (by norm_num) hsh
  rw [div_le_div_iff₀ h2 (by positivity)]
  calc |(rdMantissa x : ℚ) - rdScaled x| * 2 ^ 44 ≤ 1 / 2 * 2 ^ 44 :=
        mul_le_mul_of_nonneg_right hm (by positivity)
  _ = 2 ^ 43 := by norm_num
  _ ≤ 2 ^ rdShift x := h44
  _ = 1 * 2 ^ rdShift x := by ring

theorem rdMantissa_le_floor_add_one (x : ℚ) : rdMantissa x ≤ ⌊rdScaled x⌋ + 1 := by
  unfold rdMantissa
  split_ifs <;> omega

theorem roundDouble_le_of_le (x : ℚ) (k : ℤ) (h : x ≤ k) : roundDouble x ≤ k := by
  have h2 : (0 : ℚ) < 2 ^ rdShift x := by positivity
  have hscaled : rdScaled x ≤ (k : ℚ) * 2 ^ rdShift x := by
    rw [rdScaled]
    apply mul_le_mul_of_nonneg_right h (by positivity)
  have hKcast : ((k * 2 ^ rdShift x : ℤ) : ℚ) = (k : ℚ) * 2 ^ rdShift x := by
    push_cast; ring
  have hmle : rdMantissa x ≤ k * 2 ^ rdShift x := by
    rcases eq_or_lt_of_le hscaled with heq | hlt
    · have hint : rdScaled x = ((k * 2 ^ rdShift x : ℤ) : ℚ) := by rw [hKcast]; exact heq
      have hfr : rdScaled x - ⌊rdScaled x⌋ < 1 / 2 := by
        rw [hint, Int.floor_intCast]; norm_num
      rw [rdMantissa, if_pos hfr, hint, Int.floor_intCast]
    · have hfl : ⌊rdScaled x⌋ < k * 2 ^ rdShift x := by
        rw [Int.floor_lt, hKcast]; exact hlt
      have := rdMantissa_le_floor_add_one x
      omega
  have hmleQ : (rdMantissa x : ℚ) ≤ ((k * 2 ^ rdShift x : ℤ) : ℚ) := by exact_mod_cast hmle
  calc roundDouble x = (rdMantissa x : ℚ) / 2 ^ rdShift x := rfl
  _ ≤ ((k * 2 ^ rdShift x : ℤ) : ℚ) / 2 ^ rdShift x := by gcongr
  _ = k := by rw [hKcast]; field_simp

/-- `d07` as an exact deviation from 7/10. -/
theorem d07_eq : d07 = 7 / 10 - 1 / (5 * 2 ^ 52) := by
  rw [d07]; norm_num

/-- Exact characterisation of `int(w * 0.7)` for window values in the
reachable range: it equals `⌊7w/10⌋` except possibly at multiples of
10, where the binary64 product can land one below the exact value. -/
theorem pyMul07_cases (w : ℤ) (hlo : 2 ≤ w) (hhi : w ≤ 1000) :
    pyInt (pyMul07 w) = ⌊(7 * (w : ℚ)) / 10⌋ ∨
      ((10 : ℤ) ∣ w ∧ pyInt (pyMul07 w) = ⌊(7 * (w : ℚ)) / 10⌋ - 1) := by
  simp only [pyInt, pyMul07]
  set x : ℚ := (w : ℚ) * d07 with hxdef
  set r : ℚ := roundDouble x with hrdef
  have hwQlo : (2 : ℚ) ≤ (w : ℚ) := by exact_mod_cast hlo
  have hwQhi : (w : ℚ) ≤ 1000 := by exact_mod_cast hhi
  have hδ : x = 7 * (w : ℚ) / 10 - (w : ℚ) / (5 * 2 ^ 52) := by
    rw [hxdef, d07_eq]; ring
  have hδpos : (0 : ℚ) < (w : ℚ) / (5 * 2 ^ 52) := by positivity
  have hδsmall : (w : ℚ) / (5 * 2 ^ 52) ≤ 1 / 2 ^ 44 := by
    rw [div_le_div_iff₀ (by positivity) (by positivity)]
    nlinarith
  have happrox := roundDouble_sub_le x
  rw [← hrdef] at happrox
  have hup : r ≤ x + 1 / 2 ^ 44 := by
    have h := abs_le.mp happrox
    linarith [h.2]
  have hdown : x - 1 / 2 ^ 44 ≤ r := by
    have h := abs_le.mp happrox
    linarith [h.1]
  by_cases hdvd : (10 : ℤ) ∣ w
  · obtain ⟨k, hk⟩ := hdvd
    have hkQ : (w : ℚ) = 10 * (k : ℚ) := by rw [hk]; push_cast; ring
    have hyint : 7 * (w : ℚ) / 10 = ((7 * k : ℤ) : ℚ) := by rw [hkQ]; push_cast; ring
    have hfy : ⌊(7 * (w : ℚ)) / 10⌋ = 7 * k := by rw [hyint, Int.floor_intCast]
    have hxle : x ≤ ((7 * k : ℤ) : ℚ) := by
      rw [hδ, hyint]
      linarith
    have hrle : r ≤ ((7 * k : ℤ) : ℚ) := by
      rw [hrdef]
      exact roundDouble_le_of_le x (7 * k) hxle
    have hrgt : ((7 * k : ℤ) : ℚ) - 1 < r := by
      have h1 : ((7 * k : ℤ) : ℚ) - 1 < x - 1 / 2 ^ 44 := by
        rw [hδ, hyint]
        linarith
      linarith
    rcases eq_or_lt_of_le hrle with heq | hlt
    · left
      rw [heq, Int.floor_intCast, hfy]
    · right
      refine ⟨⟨k, hk⟩, ?_⟩
      rw [hfy]
      have hfl : ⌊r⌋ = 7 * k - 1 := by
        apply Int.floor_eq_iff.mpr
        refine ⟨?_, ?_⟩
        · push_cast
          push_cast at hrgt
          linarith
        · push_cast
          push_cast at hlt
          linarith
      omega
  · left
    -- 7w mod 10 is nonzero here, so the exact quotient sits at least 1/10
    -- inside its unit interval and the 2^-44-scale perturbations cannot
    -- move the floor.
    set n : ℤ := ⌊(7 * (w : ℚ)) / 10⌋ with hndef
    have hnle : (n : ℚ) ≤ 7 * (w : ℚ) / 10 := Int.floor_le _
    have hnlt : 7 * (w : ℚ) / 10 < n + 1 := Int.lt_floor_add_one _
    have hint1 : 10 * n ≤ 7 * w := by
      have h1 : (10 * (n : ℚ)) ≤ 7 * (w : ℚ) := by linarith
      exact_mod_cast h1
    have hr1 : 10 * n + 1 ≤ 7 * w := by
      rcases eq_or_lt_of_le hint1 with heq | hlt
      · exfalso
        apply hdvd
        omega
      · omega
    have hint2 : 7 * w < 10 * (n + 1) := by
      have h1 : (7 * (w : ℚ)) < 10 * ((n : ℚ) + 1) := by linarith
      exact_mod_cast h1
    have hylo : (n : ℚ) + 1 / 10 ≤ 7 * (w : ℚ) / 10 := by
      have h1 : ((10 * n + 1 : ℤ) : ℚ) ≤ ((7 * w : ℤ) : ℚ) := by exact_mod_cast hr1
      push_cast at h1
      linarith
    have hyhi : 7 * (w : ℚ) / 10 ≤ (n : ℚ) + 9 / 10 := by
      have h2 : 7 * w ≤ 10 * n + 9 := by omega
      have h1 : ((7 * w : ℤ) : ℚ) ≤ ((10 * n + 9 : ℤ) : ℚ) := by exact_mod_cast h2
      push_cast at h1
      linarith
    have hfl : ⌊r⌋ = n := by
      apply Int.floor_eq_iff.mpr
      refine ⟨?_, ?_⟩
      · linarith
      · linarith
    rw [hfl]

/-- C5 counterexample.  At a prior state with `cwnd = 90`, Python
computes `int(90 * 0.7)`: the binary64 product is
`63 - 2^-47 = 62.99999999999999…`, so `int` truncates to 62, not the
claimed `max(2, ⌊0.7·90⌋) = 63`. -/
theorem c5_loss_window_cex :
    (onPacketLost ⟨90, 50, .congestionAvoidance, 0, 0, 0, 100, 0⟩ 1).cwnd = 62 ∧
    max 2 ⌊(7 * ((90 : ℤ) : ℚ)) / 10⌋ = 63 := by
  constructor
  · norm_num [onPacketLost, pyInt, pyMul07, roundDouble, rdMantissa, rdScaled,
      rdShift, expFor, d07]
  · norm_num

/-- C5 amended: `on_packet_lost` sets `w_max` to the old window, enters
RECOVERY, records the event time, and sets `ssthresh` equal to the new
`cwnd`; the new `cwnd` is `max(2, int(w · 0.7))` computed in binary64
floating point, which equals `max(2, ⌊7w/10⌋)` for every window `w`
not divisible by 10, and at multiples of 10 may instead be
`max(2, ⌊7w/10⌋ − 1)` (it does at w = 90, 170, 180, 330–360, 650–730). -/
theorem c5_on_packet_lost_amended (s : CubicState) (now : ℚ)
    (hlo : 2 ≤ s.cwnd) (hhi : s.cwnd ≤ 1000) :
    (onPacketLost s now).wMax = s.cwnd ∧
    (onPacketLost s now).state = .recovery ∧
    (onPacketLost s now).lastCongestionTime = now ∧
    (onPacketLost s now).ssthresh = (onPacketLost s now).cwnd ∧
    ((onPacketLost s now).cwnd = max 2 ⌊(7 * (s.cwnd : ℚ)) / 10⌋ ∨
      ((10 : ℤ) ∣ s.cwnd ∧
        (onPacketLost s now).cwnd = max 2 (⌊(7 * (s.cwnd : ℚ)) / 10⌋ - 1))) := by
  refine ⟨rfl, rfl, rfl, rfl, ?_⟩
  rcases pyMul07_cases s.cwnd hlo hhi with h | ⟨hdvd, h⟩
  · left
    simp [onPacketLost, h]
  · right
    exact ⟨hdvd, by simp [onPacketLost, h]⟩

/-- C5 amended, witnessed at the initial controller state (`cwnd` = 10,
where the float product hits 7.0 exactly). -/
theorem c5_on_packet_lost_amended_witness :
    (onPacketLost (cubicInit 0) 5).wMax = 10 ∧
    (onPacketLost (cubicInit 0) 5).state = .recovery ∧
    (onPacketLost (cubicInit 0) 5).lastCongestionTime = 5 ∧
    (onPacketLost (cubicInit 0) 5).ssthresh = (onPacketLost (cubicInit 0) 5).cwnd ∧
    ((onPacketLost (cubicInit 0) 5).cwnd = max 2 ⌊(7 * ((cubicInit 0).cwnd : ℚ)) / 10⌋ ∨
      ((10 : ℤ) ∣ (cubicInit 0).cwnd ∧
        (onPacketLost (cubicInit 0) 5).cwnd =
          max 2 (⌊(7 * ((cubicInit 0).cwnd : ℚ)) / 10⌋ - 1))) :=
  c5_on_packet_lost_amended (cubicInit 0) 5 (by norm_num [cubicInit])
    (by norm_num [cubicInit])

/-! ### C6: window bounds along every event sequence -/

/-- Inductive invariant for the CUBIC controller: the window bounds,
plus the facts that make the slow-start increment safe (in SLOW_START
the window is still below `ssthresh`, which never exceeds its initial
value 50 while that state persists — the controller never re-enters
SLOW_START). -/
def cwndInv (s : CubicState) : Prop :=
  2 ≤ s.cwnd ∧ s.cwnd ≤ 1000 ∧
    (s.state = .slowStart → s.cwnd < s.ssthresh ∧ s.ssthresh ≤ 50)

theorem pyInt_pyMul07_le (w : ℤ) (hhi : w ≤ 1000) : pyInt (pyMul07 w) ≤ 701 := by
  have hx : (w : ℚ) * d07 ≤ (701 : ℤ) := by
    have hwQ : (w : ℚ) ≤ 1000 := by exact_mod_cast hhi
    have hd : (0 : ℚ) < d07 := by rw [d07]; norm_num
    have h1 : (w : ℚ) * d07 ≤ 1000 * d07 := by nlinarith
    have h2 : (1000 : ℚ) * d07 ≤ 701 := by rw [d07]; norm_num
    push_cast
    linarith
  have h1 := roundDouble_le_of_le ((w : ℚ) * d07) 701 hx
  rw [pyInt, pyMul07]
  have h3 : ⌊roundDouble ((w : ℚ) * d07)⌋ ≤ ⌊((701 : ℤ) : ℚ)⌋ := Int.floor_le_floor h1
  rwa [Int.floor_intCast] at h3

theorem cubicUpdate_fields (s : CubicState) (now wRaw : ℚ) :
    (cubicUpdate s now wRaw).state = s.state ∧
    (cubicUpdate s now wRaw).ssthresh = s.ssthresh ∧
    (cubicUpdate s now wRaw).inFlight = s.inFlight := by
  rw [cubicUpdate]
  split_ifs <;> exact ⟨rfl, rfl, rfl⟩

theorem cubicUpdate_cwnd (s : CubicState) (now wRaw : ℚ)
    (hlo : 2 ≤ s.cwnd) (hhi : s.cwnd ≤ 1000) :
    2 ≤ (cubicUpdate s now wRaw).cwnd ∧ (cubicUpdate s now wRaw).cwnd ≤ 1000 := by
  have hfloor : (2 : ℤ) ≤ pyInt (max 2 (min 1000 wRaw)) := by
    rw [pyInt]
    apply Int.le_floor.mpr
    calc ((2 : ℤ) : ℚ) = 2 := by norm_num
    _ ≤ max 2 (min 1000 wRaw) := le_max_left _ _
  rw [cubicUpdate]
  split_ifs with h1 h2
  · exact ⟨hlo, hhi⟩
  · constructor
    · show 2 ≤ min 1000 (pyInt (max 2 (min 1000 wRaw)))
      omega
    · show min 1000 (pyInt (max 2 (min 1000 wRaw))) ≤ 1000
      omega
  · exact ⟨hlo, hhi⟩

theorem ackBase_cwnd (s : CubicState) (rtt now : ℚ) :
    (ackBase s rtt now).cwnd = s.cwnd := rfl

theorem ackBase_ssthresh (s : CubicState) (rtt now : ℚ) :
    (ackBase s rtt now).ssthresh = s.ssthresh := rfl

theorem ackBase_state (s : CubicState) (rtt now : ℚ) :
    (ackBase s rtt now).state = s.state := rfl

theorem cwndInv_step (s : CubicState) (e : CubicEvent) (h : cwndInv s) :
    cwndInv (cubicStep s e) := by
  obtain ⟨hlo, hhi, hss⟩ := h
  cases e with
  | sent =>
    refine ⟨hlo, hhi, fun hst => hss hst⟩
  | lost now =>
    refine ⟨le_max_left _ _, ?_, ?_⟩
    · have hle := pyInt_pyMul07_le s.cwnd hhi
      simp only [onPacketLost, cubicStep]
      omega
    · intro hst
      simp [cubicStep, onPacketLost] at hst
  | acked rtt now wRaw =>
    simp only [cubicStep, onPacketAcked]
    have hbc := ackBase_cwnd s rtt now
    have hbs := ackBase_ssthresh s rtt now
    have hf := cubicUpdate_fields (ackBase s rtt now) now wRaw
    have hc := cubicUpdate_cwnd (ackBase s rtt now) now wRaw
      (by rw [hbc]; exact hlo) (by rw [hbc]; exact hhi)
    rcases hstate : s.state
    · -- SLOW_START: increment, then transition once ssthresh is reached
      obtain ⟨hlt, h50⟩ := hss hstate
      dsimp only
      split_ifs with hts
      · refine ⟨?_, ?_, ?_⟩
        · show 2 ≤ (ackBase s rtt now).cwnd + 1
          rw [hbc]; omega
        · show (ackBase s rtt now).cwnd + 1 ≤ 1000
          rw [hbc]; omega
        · intro hk
          simp at hk
      · refine ⟨?_, ?_, ?_⟩
        · show 2 ≤ (ackBase s rtt now).cwnd + 1
          rw [hbc]; omega
        · show (ackBase s rtt now).cwnd + 1 ≤ 1000
          rw [hbc]; omega
        · intro _
          rw [hbs, hbc] at hts
          refine ⟨?_, ?_⟩
          · show (ackBase s rtt now).cwnd + 1 < (ackBase s rtt now).ssthresh
            rw [hbc, hbs]
            omega
          · show (ackBase s rtt now).ssthresh ≤ 50
            rw [hbs]
            exact h50
    · -- CONGESTION_AVOIDANCE: CUBIC growth only
      dsimp only
      refine ⟨hc.1, hc.2, ?_⟩
      intro hst
      rw [hf.1, ackBase_state, hstate] at hst
      exact absurd hst (by simp)
    · -- RECOVERY: CUBIC growth, possible return to CONGESTION_AVOIDANCE
      dsimp only
      split_ifs with hts
      · refine ⟨?_, ?_, ?_⟩
        · show 2 ≤ (cubicUpdate (ackBase s rtt now) now wRaw).cwnd
          exact hc.1
        · show (cubicUpdate (ackBase s rtt now) now wRaw).cwnd ≤ 1000
          exact hc.2
        · intro hk
          simp at hk
      · refine ⟨hc.1, hc.2, ?_⟩
        intro hst
        rw [hf.1, ackBase_state, hstate] at hst
        exact absurd hst (by simp)

theorem cwndInv_foldl (events : List CubicEvent) (s : CubicState) (h : cwndInv s) :
    cwndInv (events.foldl cubicStep s) := by
  induction events generalizing s with
  | nil => exact h
  | cons e es ih => exact ih _ (cwndInv_step s e h)

/-- C6: starting from a fresh controller, after any finite sequence of
`on_packet_sent` / `on_packet_acked` / `on_packet_lost` calls (with
arbitrary clock readings, RTT samples and CUBIC float results), the
congestion window stays within `[MIN_WINDOW, MAX_WINDOW] = [2, 1000]`.
Quantifying over all event lists gives the bound after every call of
every call sequence. -/
theorem c6_cwnd_bounds (events : List CubicEvent) (t0 : ℚ) :
    2 ≤ (events.foldl cubicStep (cubicInit t0)).cwnd ∧
    (events.foldl cubicStep (cubicInit t0)).cwnd ≤ 1000 := by
  have hinit : cwndInv (cubicInit t0) := by
    refine ⟨by norm_num [cubicInit], by norm_num [cubicInit], ?_⟩
    intro _
    norm_num [cubicInit]
  have := cwndInv_foldl events (cubicInit t0) hinit
  exact ⟨this.1, this.2.1⟩

/-! ## Connection-level RTT smoother — `src/connection/connection.py`
`_update_rtt`, lines 261-290, with the fields initialised in `__init__`
lines 52-57.  The EWMA constants 0.75, 0.25, 0.875, 0.125 are exact
binary64 values, so exact rational arithmetic agrees with the float
code on them; no claim depends on the rounding of the products. -/

structure RttState where
  smoothedRtt : ℚ
  rttVariance : ℚ
  minRtt : Option ℚ
  latestRtt : ℚ
  rttSamples : List ℚ
  deriving DecidableEq, Repr

/-- `__init__` lines 52-57: `smoothed_rtt = 0.1` (100 ms), variance 0,
`min_rtt = inf` (modelled `none`), `latest_rtt = 0`, no samples. -/
def rttInit : RttState :=
  { smoothedRtt := 1 / 10, rttVariance := 0, minRtt := none, latestRtt := 0,
    rttSamples := [] }

/-- `_update_rtt(sample_rtt)` — lines 261-290: reject `sample_rtt ≤ 0`;
record `latest_rtt`; lower `min_rtt`; then EITHER initialise
(`smoothed_rtt == 0` — dead from the initial state, see C7) OR apply
the QUIC EWMA; finally append the sample, keeping at most 100. -/
def updateRtt (s : RttState) (r : ℚ) : RttState :=
  if r ≤ 0 then s
  else
    { smoothedRtt := if s.smoothedRtt = 0 then r
        else 875 / 1000 * s.smoothedRtt + 125 / 1000 * r,
      rttVariance := if s.smoothedRtt = 0 then r / 2
        else 75 / 100 * s.rttVariance + 25 / 100 * |s.smoothedRtt - r|,
      minRtt := match s.minRtt with
        | none => some r
        | some m => if r < m then some r else some m,
      latestRtt := r,
      rttSamples := if (s.rttSamples ++ [r]).length > 100
        then (s.rttSamples ++ [r]).drop 1 else s.rttSamples ++ [r] }

/-- C7 counterexample.  `smoothed_rtt` is initialised to 0.1, not 0, so
the very first accepted sample (here 0.25 s) does not set
`smoothed_rtt = r` as claimed: the EWMA branch runs and produces
`0.875·0.1 + 0.125·0.25 = 0.11875 ≠ 0.25` (and
`rtt_variance = 0.75·0 + 0.25·|0.1 − 0.25| = 0.0375 ≠ r/2`). -/
theorem c7_first_sample_cex :
    (updateRtt rttInit (1 / 4)).smoothedRtt = 19 / 160 ∧
    (19 : ℚ) / 160 ≠ 1 / 4 ∧
    (updateRtt rttInit (1 / 4)).rttVariance = 3 / 80 ∧
    (3 : ℚ) / 80 ≠ 1 / 4 / 2 := by
  refine ⟨?_, by norm_num, ?_, by norm_num⟩
  · norm_num [updateRtt, rttInit]
  · norm_num [updateRtt, rttInit, abs]

/-- C7 amended: because `smoothed_rtt` starts at 0.1 and every accepted
sample keeps it positive, the `smoothed_rtt == 0` initialisation branch
is unreachable from the initial state; every accepted sample `r > 0`
(samples `≤ 0` are rejected unchanged) applies the EWMA
`rtt_variance' = 0.75·rtt_variance + 0.25·|smoothed_rtt − r|`,
`smoothed_rtt' = 0.875·smoothed_rtt + 0.125·r`.  The claimed
first-sample initialisation would run only from the unreachable
`smoothed_rtt = 0` state. -/
theorem c7_update_rtt_amended :
    (∀ samples : List ℚ, 0 < (samples.foldl updateRtt rttInit).smoothedRtt) ∧
    (∀ (s : RttState) (r : ℚ), 0 < r → s.smoothedRtt ≠ 0 →
      (updateRtt s r).smoothedRtt = 875 / 1000 * s.smoothedRtt + 125 / 1000 * r ∧
      (updateRtt s r).rttVariance =
        75 / 100 * s.rttVariance + 25 / 100 * |s.smoothedRtt - r|) ∧
    (∀ (s : RttState) (r : ℚ), r ≤ 0 → updateRtt s r = s) := by
  refine ⟨?_, ?_, ?_⟩
  · have step : ∀ (s : RttState) (r : ℚ), 0 < s.smoothedRtt →
        0 < (updateRtt s r).smoothedRtt := by
      intro s r hpos
      rcases le_or_lt r 0 with hr | hr
      · rw [updateRtt, if_pos hr]
        exact hpos
      · rw [updateRtt, if_neg (not_le.mpr hr)]
        show 0 < (if s.smoothedRtt = 0 then r
          else 875 / 1000 * s.smoothedRtt + 125 / 1000 * r)
        by_cases h0 : s.smoothedRtt = 0
        · rw [if_pos h0]
          exact hr
        · rw [if_neg h0]
          linarith
    intro samples
    have : ∀ (l : List ℚ) (s : RttState), 0 < s.smoothedRtt →
        0 < (l.foldl updateRtt s).smoothedRtt := by
      intro l
      induction l with
      | nil => intro s hs; exact hs
      | cons a as ih => intro s hs; exact ih _ (step s a hs)
    exact this samples rttInit (by norm_num [rttInit])
  · intro s r hr hs0
    constructor <;> simp [updateRtt, not_le.mpr hr, hs0]
  · intro s r hr
    rw [updateRtt, if_pos hr]

/-- C7 amended, witnessed: one EWMA step from a concrete positive
state, and rejection of a nonpositive sample. -/
theorem c7_update_rtt_amended_witness :
    (updateRtt ⟨1 / 10, 0, none, 0, []⟩ (1 / 4)).smoothedRtt =
        875 / 1000 * (1 / 10) + 125 / 1000 * (1 / 4) ∧
    (updateRtt ⟨1 / 10, 0, none, 0, []⟩ (1 / 4)).rttVariance =
        75 / 100 * 0 + 25 / 100 * |1 / 10 - 1 / 4| := by
  have h := c7_update_rtt_amended.2.1 ⟨1 / 10, 0, none, 0, []⟩ (1 / 4)
    (by norm_num) (by norm_num)
  exact h

/-! ## Connection, paths and the UDP receive path —
`src/connection/connection.py` and `src/transport/udp.py`

Python `Path` objects are shared mutably between `connection.paths`,
`active_path`, `validating_paths` and `pending_path_challenges`; the
embedding stores every `Path` object ever created in an arena
(`pathStore`) and the other fields hold indices into it, so a mutation
of `is_validated` is visible through every reference, as in Python.
Randomness (`os.urandom` challenges) and the transport sockname enter
as oracle arguments. -/

structure Path where
  localAddr : Addr
  peerAddr : Addr
  isValidated : Bool
  deriving DecidableEq, Repr

abbrev PathId := Nat

/-- The fields of `QuicConnection` (connection.py lines 24-63) that the
path/CID claims range over.  Packet-number, RTT and congestion fields
live in `CubicState`/`RttState` above. -/
structure ConnState where
  connectionId : Bytes
  peerConnectionId : Option Bytes
  isClient : Bool
  pathStore : List Path
  paths : List PathId
  activePath : Option PathId
  validatingPaths : List (Addr × PathId)
  pendingPathChallenges : List (Bytes × PathId)
  isEstablished : Bool
  deriving DecidableEq, Repr

/-- `QuicConnection.__init__`, restricted to the modelled fields. -/
def initConn (cid : Bytes) (isClient : Bool) : ConnState :=
  { connectionId := cid, peerConnectionId := none, isClient := isClient,
    pathStore := [], paths := [], activePath := none, validatingPaths := [],
    pendingPathChallenges := [], isEstablished := false }

/-- Python `k in dict` / `dict[k]` on the modelled dictionaries. -/
def assocGet {α β : Type} [DecidableEq α] : List (α × β) → α → Option β
  | [], _ => none
  | (a, b) :: rest, k => if a = k then some b else assocGet rest k

/-- Python `dict[k] = v` (overwrite or append). -/
def assocSet {α β : Type} [DecidableEq α] : List (α × β) → α → β → List (α × β)
  | [], k, v => [(k, v)]
  | (a, b) :: rest, k, v =>
    if a = k then (k, v) :: rest else (a, b) :: assocSet rest k v

/-- Mutate the `Path` object at arena index `i` in place. -/
def updateAt : List Path → PathId → (Path → Path) → List Path
  | [], _, _ => []
  | p :: rest, 0, f => f p :: rest
  | p :: rest, n + 1, f => p :: updateAt rest n f

/-- `path.is_validated = True` on the shared object at index `i`. -/
def markValidated (st : ConnState) (i : PathId) : ConnState :=
  { st with
    pathStore := updateAt st.pathStore i (fun p => { p with isValidated := true }) }

/-- The PATH_RESPONSE arm of `QuicTransport._process_packet` (udp.py
lines 129-136): if the data matches a pending challenge, set the
path's `is_validated` (regardless of the sender address), and promote
the path to `active_path` only when the frame arrived from the path's
peer address.  The challenge is read from the dict but never popped. -/
def handlePathResponseUdp (st : ConnState) (d : Bytes) (addr : Addr) : ConnState :=
  match assocGet st.pendingPathChallenges d with
  | none => st
  | some i =>
    if (((markValidated st i).pathStore.get? i).map Path.peerAddr) = some addr then
      { markValidated st i with activePath := some i }
    else markValidated st i

/-- `QuicConnection.validate_path` (connection.py lines 137-170):
append the new path, switch `active_path` to it, then build the bare
SHORT validation packet.  When `peer_connection_id` is still `None`,
`Header.to_bytes` inside `create_packet` raises `TypeError`
(`len(None)`, header.py line 57) BEFORE `_send_packet` runs: the
exception propagates out of `validate_path`, leaving the path appended
and active but never validated, and the old active path not restored.
Otherwise `sendSuccess` is the boolean `_send_packet` returned: on
success the path is marked validated directly (no PATH_RESPONSE
involved); on failure the previous active path is restored. -/
def validatePath (st : ConnState) (p : Path) (sendSuccess : Bool) : ConnState :=
  if st.peerConnectionId = none then
    { st with pathStore := st.pathStore ++ [p],
              paths := st.paths ++ [st.pathStore.length],
              activePath := some st.pathStore.length }
  else if sendSuccess then
    markValidated
      { st with pathStore := st.pathStore ++ [p],
                paths := st.paths ++ [st.pathStore.length],
                activePath := some st.pathStore.length }
      st.pathStore.length
  else
    { st with pathStore := st.pathStore ++ [p],
              paths := st.paths ++ [st.pathStore.length],
              activePath := st.activePath }

/-- `QuicTransport._handle_path_migration` (udp.py lines 88-97)
followed by the scheduled `QuicConnection.send_path_challenge`
(connection.py lines 70-74): create an unvalidated candidate path,
remember it in `validating_paths`, and register the fresh random
`challenge` in `pending_path_challenges`.  The candidate is not added
to `connection.paths` and nothing else changes. -/
def handlePathMigration (st : ConnState) (localAddr newAddr : Addr)
    (challenge : Bytes) : ConnState :=
  { st with pathStore := st.pathStore ++ [⟨localAddr, newAddr, false⟩],
            validatingPaths := assocSet st.validatingPaths newAddr st.pathStore.length,
            pendingPathChallenges :=
              assocSet st.pendingPathChallenges challenge st.pathStore.length }

/-- The frame loop of `QuicTransport._process_packet` (udp.py lines
115-153), which runs inside the surrounding try (lines 102-156):
PATH_CHALLENGE builds the response packet with
`Header(SHORT, connection.peer_connection_id, …)` — when the peer CID
is still `None`, `header.to_bytes` raises `TypeError` (`len(None)`),
the except arm catches it and the REMAINING frames of this datagram
are never dispatched; with a peer CID present the response datagram is
sent and the responder state is unchanged (udp.py lines 116-127).
PATH_RESPONSE is handled above; the FILE_* frames are dispatched to
the client/server application objects and touch no connection state. -/
def dispatchFrames (st : ConnState) (addr : Addr) : List Frame → ConnState
  | [] => st
  | f :: fs =>
    match f with
    | .pathChallenge _ =>
      if st.peerConnectionId = none then st
      else dispatchFrames st addr fs
    | .pathResponse d => dispatchFrames (handlePathResponseUdp st d addr) addr fs
    | _ => dispatchFrames st addr fs

/-- `QuicTransport._process_packet` (udp.py lines 99-156): payloads
shorter than 2 bytes are ignored; otherwise the 2-byte length prefix
selects the frame region, the frames are parsed, and the frame loop
runs (with its abort-on-exception behaviour, see `dispatchFrames`); a
parse exception is logged and the datagram is dropped with no state
change. -/
def processPacketUdp (st : ConnState) (payload : Bytes) (addr : Addr) : ConnState :=
  if payload.length < 2 then st
  else
    match parseFrames (pySlice payload 2 (2 + fromBytesBE (payload.take 2))) with
    | .error _ => st
    | .ok frames => dispatchFrames st addr frames

/-- The per-connection effect of `QuicTransport.datagram_received`
(udp.py lines 40-86) on an existing connection, after the header has
been parsed: an INITIAL received by a client connection overwrites
`peer_connection_id` with the packet's source CID (no emptiness or
already-set check) and returns; otherwise the active path is created
on first contact (assigned directly, not appended to
`connection.paths`), an address change triggers path migration (with
oracle `challenge` bytes for the scheduled PATH_CHALLENGE), and the
payload is processed. -/
def datagramToConn (st : ConnState) (localAddr : Addr) (h : Header) (payload : Bytes)
    (addr : Addr) (challenge : Bytes) : ConnState :=
  if h.packetType = .initial ∧ st.isClient then
    { st with peerConnectionId := some h.scid }
  else
    processPacketUdp
      (match st.activePath with
       | none =>
         { st with pathStore := st.pathStore ++ [⟨localAddr, addr, false⟩],
                   activePath := some st.pathStore.length }
       | some i =>
         if ((st.pathStore.get? i).map Path.peerAddr) ≠ some addr then
           handlePathMigration st localAddr addr challenge
         else st)
      payload addr

/-- Server-side connection creation for an unknown DCID on an INITIAL
packet: `QuicTransport.datagram_received` (udp.py lines 50-62) creates
the connection with own CID = the packet's DCID, falls through to the
path update and `_process_packet`, and the scheduled
`QuicServer.handle_initial_packet` (server.py lines 28-55) then sets
`peer_connection_id` to the packet's SCID (no emptiness check), sends
the response and marks the connection established. -/
def serverAcceptInitial (dcid scid : Bytes) (localAddr addr : Addr)
    (payload : Bytes) : ConnState :=
  { processPacketUdp
      { initConn dcid false with
          pathStore := [⟨localAddr, addr, false⟩], activePath := some 0 }
      payload addr
    with peerConnectionId := some scid, isEstablished := true }

/-- The operations of the live code that touch a connection's paths or
CIDs: receiving a datagram, and client-initiated migration via
`validate_path` (client.py line 144). -/
inductive ConnEvent where
  | recvDatagram (localAddr : Addr) (h : Header) (payload : Bytes) (addr : Addr)
      (challenge : Bytes)
  | validate (p : Path) (sendSuccess : Bool)

def connStep (st : ConnState) : ConnEvent → ConnState
  | .recvDatagram l h pl a c => datagramToConn st l h pl a c
  | .validate p ok => validatePath st p ok

/-! ## `QuicConnection.process_packet` — C10

connection.py imports `PacketProcessor` from
`src/packet/packet_processor.py` (line 9), and that class defines only
`parse_frames` and `create_packet` — there is no `parse_packet` method
(the unrelated, never-imported `src/packet/processor.py` has one).
The first statement of `process_packet`'s try block (line 197) is
`PacketProcessor.parse_packet(packet)`, so every call raises
`AttributeError` before any state is read or written, and the except
arm (lines 216-218) logs and returns `(None, [])`. -/
def parsePacketMissing (_packet : Bytes) : Except String (Header × List Frame) :=
  .error "AttributeError: parse_packet"

/-- The rest of `process_packet`'s try body (connection.py lines
199-215), reachable only if `parse_packet` existed: the guarded
peer-CID update, then the per-type dispatch — `_handle_initial_packet`
(lines 292-318, server side: unconditional peer-CID set, fresh active
path at the transport's `sockname`, handshake response),
`_handle_handshake_packet` (lines 320-329: mark established),
`_handle_short_packet` (lines 331-343: logs only).  `_process_ack`
touches only the packet-number / RTT / congestion bookkeeping outside
this state. -/
def processParsedPacket (st : ConnState) (h : Header) (sockname addr : Addr) :
    ConnState :=
  if st.peerConnectionId = none ∧ h.scid ≠ [] then
    processParsedDispatch { st with peerConnectionId := some h.scid } h sockname addr
  else processParsedDispatch st h sockname addr
where
  processParsedDispatch (st1 : ConnState) (h : Header) (sockname addr : Addr) :
      ConnState :=
    match h.packetType with
    | .initial =>
      if st1.isClient then st1
      else
        { st1 with peerConnectionId := some h.scid,
                   pathStore := st1.pathStore ++ [⟨sockname, addr, false⟩],
                   paths := st1.paths ++ [st1.pathStore.length],
                   activePath := some st1.pathStore.length }
    | .handshake => { st1 with isEstablished := true }
    | .short => st1

/-- `QuicConnection.process_packet` (connection.py lines 193-218). -/
def processPacketConn (st : ConnState) (packet : Bytes) (sockname addr : Addr) :
    (Option Header × List Frame) × ConnState :=
  match parsePacketMissing packet with
  | .error _ => ((none, []), st)
  | .ok (h, frames) => ((some h, frames), processParsedPacket st h sockname addr)

/-- C10: `process_packet` returns `(None, [])` and leaves the
connection unchanged on every input, because the `PacketProcessor`
class it imports has no `parse_packet` attribute: the first line of
the try block always raises and the exception handler runs before any
state update or frame dispatch. -/
theorem c10_process_packet_noop (st : ConnState) (packet : Bytes)
    (sockname addr : Addr) :
    processPacketConn st packet sockname addr = ((none, []), st) := rfl

/-! ## Arena lemmas -/

theorem updateAt_get?_self (store : List Path) (i : PathId) (f : Path → Path) :
    (updateAt store i f).get? i = (store.get? i).map f := by
  induction store generalizing i with
  | nil => cases i <;> rfl
  | cons p rest ih =>
    cases i with
    | zero => rfl
    | succ n => simpa [updateAt] using ih n

theorem updateAt_get?_ne (store : List Path) (i j : PathId) (f : Path → Path)
    (h : j ≠ i) : (updateAt store i f).get? j = store.get? j := by
  induction store generalizing i j with
  | nil => cases i <;> rfl
  | cons p rest ih =>
    cases i with
    | zero => cases j with
      | zero => exact absurd rfl h
      | succ m => rfl
    | succ n =>
      cases j with
      | zero => rfl
      | succ m => simpa [updateAt] using ih n m (fun hmn => h (congrArg Nat.succ hmn))

theorem get?_append_left_of_some {store : List Path} {j : PathId} {p : Path}
    (h : store.get? j = some p) (ps : List Path) : (store ++ ps).get? j = some p := by
  obtain ⟨hlt, -⟩ := List.get?_eq_some.mp h
  rw [List.get?_eq_getElem?] at h ⊢
  rw [List.getElem?_append_left hlt]
  exact h

/-! ## C1: handling of a received PATH_RESPONSE -/

/-- C1 counterexample.  A connection holds the pending challenge
`d = [1..8]` for arena path 0 (peer `("b", 2)`); the PATH_RESPONSE with
matching data arrives from the expected peer address.  The resulting
state has the path validated and promoted to active, but the
challenge is still present in `pending_path_challenges` — udp.py reads
`connection.pending_path_challenges[frame.data]` without popping it,
so the claimed removal never happens (the popping variant in
`QuicConnection.handle_path_response` is dead code: nothing calls it). -/
theorem c1_response_not_removed_cex :
    handlePathResponseUdp
      ⟨[0xAA], none, true, [⟨("a", 1), ("b", 2), false⟩], [0], none, [],
       [([1, 2, 3, 4, 5, 6, 7, 8], 0)], true⟩
      [1, 2, 3, 4, 5, 6, 7, 8] ("b", 2) =
    ⟨[0xAA], none, true, [⟨("a", 1), ("b", 2), true⟩], [0], some 0, [],
     [([1, 2, 3, 4, 5, 6, 7, 8], 0)], true⟩ := rfl

/-- C1 amended: on a received PATH_RESPONSE carrying data `d` from
address `a` — if `d` matches a pending challenge for a stored path,
that path's `is_validated` becomes true (even when `a` differs from
the expected address) and the path becomes `active_path` exactly when
`a` equals its peer address; the challenge is NOT removed from
`pending_path_challenges` (it survives in every case); if `d` matches
no pending challenge the connection state is unchanged; if `a` differs
from the expected peer address `active_path` is unchanged. -/
theorem c1_path_response_amended (st : ConnState) (d : Bytes) (addr : Addr) :
    (assocGet st.pendingPathChallenges d = none →
      handlePathResponseUdp st d addr = st) ∧
    (∀ i, assocGet st.pendingPathChallenges d = some i →
      ((handlePathResponseUdp st d addr).pathStore.get? i).map Path.isValidated =
        (st.pathStore.get? i).map (fun _ => true) ∧
      (handlePathResponseUdp st d addr).pendingPathChallenges =
        st.pendingPathChallenges ∧
      ((st.pathStore.get? i).map Path.peerAddr = some addr →
        (handlePathResponseUdp st d addr).activePath = some i) ∧
      ((st.pathStore.get? i).map Path.peerAddr ≠ some addr →
        (handlePathResponseUdp st d addr).activePath = st.activePath)) := by
  constructor
  · intro hnone
    rw [handlePathResponseUdp, hnone]
  · intro i hi
    rw [handlePathResponseUdp, hi]
    dsimp only
    have hcond : ((markValidated st i).pathStore.get? i).map Path.peerAddr =
        (st.pathStore.get? i).map Path.peerAddr := by
      show ((updateAt st.pathStore i _).get? i).map Path.peerAddr = _
      rw [updateAt_get?_self]
      cases st.pathStore.get? i <;> rfl
    have hval : ((markValidated st i).pathStore.get? i).map Path.isValidated =
        (st.pathStore.get? i).map (fun _ => true) := by
      show ((updateAt st.pathStore i _).get? i).map Path.isValidated = _
      rw [updateAt_get?_self]
      cases st.pathStore.get? i <;> rfl
    split_ifs with hc
    · exact ⟨hval, rfl, fun _ => rfl,
        fun hne => absurd (hcond.symm.trans hc) hne⟩
    · rw [hcond] at hc
      exact ⟨hval, rfl, fun heq => absurd heq hc, fun _ => rfl⟩

/-- C1 amended, witnessed at the counterexample state (matching data,
matching address). -/
theorem c1_path_response_amended_witness :
    ((handlePathResponseUdp
        ⟨[0xAA], none, true, [⟨("a", 1), ("b", 2), false⟩], [0], none, [],
         [([1, 2, 3, 4, 5, 6, 7, 8], 0)], true⟩
        [1, 2, 3, 4, 5, 6, 7, 8] ("b", 2)).pathStore.get? 0).map Path.isValidated =
      some true ∧
    (handlePathResponseUdp
        ⟨[0xAA], none, true, [⟨("a", 1), ("b", 2), false⟩], [0], none, [],
         [([1, 2, 3, 4, 5, 6, 7, 8], 0)], true⟩
        [1, 2, 3, 4, 5, 6, 7, 8] ("b", 2)).activePath = some 0 := by
  have h := (c1_path_response_amended
    ⟨[0xAA], none, true, [⟨("a", 1), ("b", 2), false⟩], [0], none, [],
     [([1, 2, 3, 4, 5, 6, 7, 8], 0)], true⟩
    [1, 2, 3, 4, 5, 6, 7, 8] ("b", 2)).2 0 rfl
  exact ⟨h.1, h.2.2.1 rfl⟩

/-! ## C8: monotonicity of `is_validated` -/

/-- C8 counterexample.  `validate_path` on an established client
connection (peer CID present, so the header builds without error), with
a fresh unvalidated path and a successful send, marks the path
validated directly — no PATH_RESPONSE is received or even requested —
contradicting the claim that only a matching PATH_RESPONSE sets the
flag. -/
theorem c8_validate_path_cex :
    validatePath { initConn [0xAA] true with peerConnectionId := some [0xBB] }
      ⟨("a", 1), ("b", 2), false⟩ true =
    ⟨[0xAA], some [0xBB], true, [⟨("a", 1), ("b", 2), true⟩], [0], some 0, [],
     [], false⟩ := rfl

theorem validated_markValidated (st : ConnState) (i j : PathId)
    (h : (st.pathStore.get? j).map Path.isValidated = some true) :
    ((markValidated st i).pathStore.get? j).map Path.isValidated = some true := by
  show ((updateAt st.pathStore i _).get? j).map Path.isValidated = some true
  by_cases hij : j = i
  · subst hij
    rw [updateAt_get?_self]
    cases hp : st.pathStore.get? j with
    | none => rw [hp] at h; simp at h
    | some p => rfl
  · rw [updateAt_get?_ne _ _ _ _ hij]
    exact h

theorem validated_append (store : List Path) (ps : List Path) (j : PathId)
    (h : (store.get? j).map Path.isValidated = some true) :
    ((store ++ ps).get? j).map Path.isValidated = some true := by
  cases hp : store.get? j with
  | none => rw [hp] at h; simp at h
  | some p =>
    rw [get?_append_left_of_some hp]
    rw [hp] at h
    exact h

theorem validated_handlePathResponse (st : ConnState) (d : Bytes) (addr : Addr)
    (j : PathId) (h : (st.pathStore.get? j).map Path.isValidated = some true) :
    ((handlePathResponseUdp st d addr).pathStore.get? j).map Path.isValidated =
      some true := by
  rw [handlePathResponseUdp]
  cases assocGet st.pendingPathChallenges d with
  | none => exact h
  | some i =>
    dsimp only
    split_ifs
    · exact validated_markValidated st i j h
    · exact validated_markValidated st i j h

theorem validated_dispatchFrames (frames : List Frame) (st : ConnState)
    (addr : Addr) (j : PathId)
    (h : (st.pathStore.get? j).map Path.isValidated = some true) :
    ((dispatchFrames st addr frames).pathStore.get? j).map Path.isValidated =
      some true := by
  induction frames generalizing st with
  | nil => exact h
  | cons f fs ih =>
    cases f with
    | pathChallenge d =>
      simp only [dispatchFrames]
      split_ifs
      · exact h
      · exact ih st h
    | pathResponse d =>
      simp only [dispatchFrames]
      exact ih _ (validated_handlePathResponse st d addr j h)
    | newConnectionId a b => exact ih st h
    | fileRequest n => exact ih st h
    | fileResponse a b => exact ih st h
    | fileData a b => exact ih st h

theorem validated_processPacketUdp (st : ConnState) (payload : Bytes) (addr : Addr)
    (j : PathId) (h : (st.pathStore.get? j).map Path.isValidated = some true) :
    ((processPacketUdp st payload addr).pathStore.get? j).map Path.isValidated =
      some true := by
  rw [processPacketUdp]
  split_ifs
  · exact h
  · cases parseFrames (pySlice payload 2 (2 + fromBytesBE (payload.take 2))) with
    | error e => exact h
    | ok frames => exact validated_dispatchFrames frames st addr j h

theorem validated_connStep (st : ConnState) (e : ConnEvent) (j : PathId)
    (h : (st.pathStore.get? j).map Path.isValidated = some true) :
    ((connStep st e).pathStore.get? j).map Path.isValidated = some true := by
  cases e with
  | validate p ok =>
    show ((validatePath st p ok).pathStore.get? j).map Path.isValidated = some true
    rw [validatePath]
    split_ifs
    · exact validated_append st.pathStore [p] j h
    · exact validated_markValidated
        { st with pathStore := st.pathStore ++ [p],
                  paths := st.paths ++ [st.pathStore.length],
                  activePath := some st.pathStore.length }
        st.pathStore.length j (validated_append st.pathStore [p] j h)
    · exact validated_append st.pathStore [p] j h
  | recvDatagram l hd pl a c =>
    show ((datagramToConn st l hd pl a c).pathStore.get? j).map Path.isValidated =
      some true
    rw [datagramToConn]
    split_ifs with hcl
    · exact h
    · cases hap : st.activePath with
      | none => exact validated_processPacketUdp _ pl a j (validated_append _ [_] j h)
      | some i =>
        dsimp only
        split_ifs with hmig
        · exact validated_processPacketUdp _ pl a j (validated_append _ [_] j h)
        · exact validated_processPacketUdp _ pl a j h

/-- C8 amended: over every sequence of the live operations (datagram
receipt and client `validate_path` migration), a path's `is_validated`
flag is monotone — once true it stays true for the rest of the
connection's lifetime.  But the flag is set not only by a matching
PATH_RESPONSE: when the peer CID is present, `validate_path` sets it
directly as soon as its bare validation packet is sent successfully
(second conjunct), so the "only on receipt of a matching
PATH_RESPONSE" half of the claim fails.  When the peer CID is still
`None`, `validate_path` instead dies with `TypeError` while building
the header, after appending the path and making it active but before
validating it or restoring the old active path (third conjunct). -/
theorem c8_validated_monotone_amended :
    (∀ (events : List ConnEvent) (st : ConnState) (i : PathId),
      (st.pathStore.get? i).map Path.isValidated = some true →
      (((events.foldl connStep st).pathStore.get? i).map Path.isValidated) =
        some true) ∧
    (∀ (st : ConnState) (p : Path), st.peerConnectionId ≠ none →
      ((validatePath st p true).pathStore.get? st.pathStore.length).map
        Path.isValidated = some true) ∧
    (∀ (st : ConnState) (p : Path) (ok : Bool), st.peerConnectionId = none →
      validatePath st p ok =
        { st with pathStore := st.pathStore ++ [p],
                  paths := st.paths ++ [st.pathStore.length],
                  activePath := some st.pathStore.length }) := by
  refine ⟨?_, ?_, ?_⟩
  · intro events
    induction events with
    | nil => intro st i h; exact h
    | cons e es ih => intro st i h; exact ih _ i (validated_connStep st e i h)
  · intro st p hcid
    rw [validatePath, if_neg hcid, if_pos rfl]
    show ((updateAt ((st.pathStore ++ [p])) st.pathStore.length _).get?
      st.pathStore.length).map Path.isValidated = some true
    rw [updateAt_get?_self, List.get?_eq_getElem?, List.getElem?_concat_length]
    rfl
  · intro st p ok hcid
    rw [validatePath, if_pos hcid]

/-- C8 amended, witnessed: a validated path stays validated across a
failed migration attempt, and `validate_path` with a peer CID present
and a successful send validates the appended path. -/
theorem c8_validated_monotone_amended_witness :
    ((([ConnEvent.validate ⟨("c", 3), ("d", 4), false⟩ false].foldl connStep
      ⟨[0xAA], some [0xBB], true, [⟨("a", 1), ("b", 2), true⟩], [0], some 0,
       [], [], true⟩).pathStore.get? 0).map Path.isValidated) = some true ∧
    (((validatePath { initConn [0xAA] true with peerConnectionId := some [0xBB] }
      ⟨("c", 3), ("d", 4), false⟩ true).pathStore.get? 0).map Path.isValidated) =
      some true :=
  ⟨c8_validated_monotone_amended.1 _ _ 0 rfl,
   c8_validated_monotone_amended.2.1 _ _ (by simp)⟩

/-! ## C9: assignment of `peer_connection_id` -/

/-- C9 counterexample.  A client connection whose peer CID is already
`[0xBB]` receives a second INITIAL packet with source CID `[0xCC]`:
udp.py line 70 overwrites `peer_connection_id` unconditionally, so the
"assigned exactly once / never reassigned" claim fails (there is also
no non-emptiness check on this path; the guarded set-once code in
`connection.process_packet` is unreachable, see C10). -/
theorem c9_peer_cid_cex :
    (datagramToConn
      { initConn [0xAA] true with peerConnectionId := some [0xBB] }
      ("l", 1) ⟨.initial, [0xAA], [0xCC]⟩ [] ("p", 2) []).peerConnectionId =
      some [0xCC] := rfl

theorem peerCid_handlePathResponse (st : ConnState) (d : Bytes) (addr : Addr) :
    (handlePathResponseUdp st d addr).peerConnectionId = st.peerConnectionId := by
  rw [handlePathResponseUdp]
  cases assocGet st.pendingPathChallenges d with
  | none => rfl
  | some i =>
    dsimp only
    split_ifs <;> rfl

theorem peerCid_dispatchFrames (frames : List Frame) (st : ConnState)
    (addr : Addr) :
    (dispatchFrames st addr frames).peerConnectionId = st.peerConnectionId := by
  induction frames generalizing st with
  | nil => rfl
  | cons f fs ih =>
    cases f with
    | pathChallenge d =>
      simp only [dispatchFrames]
      split_ifs
      · rfl
      · exact ih st
    | pathResponse d =>
      simp only [dispatchFrames]
      rw [ih, peerCid_handlePathResponse]
    | newConnectionId a b => exact ih st
    | fileRequest n => exact ih st
    | fileResponse a b => exact ih st
    | fileData a b => exact ih st

theorem peerCid_processPacketUdp (st : ConnState) (payload : Bytes) (addr : Addr) :
    (processPacketUdp st payload addr).peerConnectionId = st.peerConnectionId := by
  rw [processPacketUdp]
  split_ifs
  · rfl
  · cases parseFrames (pySlice payload 2 (2 + fromBytesBE (payload.take 2))) with
    | error e => rfl
    | ok frames => exact peerCid_dispatchFrames frames st addr

/-- C9 amended: `peer_connection_id` is written on the live receive
path as follows — a client connection has it overwritten by EVERY
received INITIAL packet (udp.py line 70, no emptiness or set-once
check); every other datagram (non-INITIAL, or any packet on a server
connection) leaves it unchanged; a server connection receives it
exactly once, at creation, from the first INITIAL's source CID
(server.py line 34, again regardless of emptiness).  The guarded
set-once update in `connection.process_packet` is dead code (C10). -/
theorem c9_peer_cid_amended :
    (∀ (st : ConnState) (l : Addr) (h : Header) (pl : Bytes) (a : Addr) (c : Bytes),
      st.isClient = true → h.packetType = .initial →
      (datagramToConn st l h pl a c).peerConnectionId = some h.scid) ∧
    (∀ (st : ConnState) (l : Addr) (h : Header) (pl : Bytes) (a : Addr) (c : Bytes),
      h.packetType ≠ .initial ∨ st.isClient = false →
      (datagramToConn st l h pl a c).peerConnectionId = st.peerConnectionId) ∧
    (∀ (dcid scid : Bytes) (l a : Addr) (pl : Bytes),
      (serverAcceptInitial dcid scid l a pl).peerConnectionId = some scid) := by
  refine ⟨?_, ?_, ?_⟩
  · intro st l h pl a c hcl hinit
    rw [datagramToConn, if_pos ⟨hinit, hcl⟩]
  · intro st l h pl a c hne
    have hcond : ¬(h.packetType = .initial ∧ st.isClient = true) := by
      rcases hne with h1 | h1
      · exact fun hx => h1 hx.1
      · exact fun hx => by rw [h1] at hx; exact Bool.false_ne_true hx.2
    rw [datagramToConn, if_neg (by simpa using hcond), peerCid_processPacketUdp]
    cases hap : st.activePath with
    | none => rfl
    | some i =>
      dsimp only
      split_ifs <;> rfl
  · intro dcid scid l a pl
    rfl

/-- C9 amended, witnessed: a handshake (non-INITIAL) packet leaves the
peer CID alone, and server acceptance records the client's SCID. -/
theorem c9_peer_cid_amended_witness :
    (datagramToConn
      { initConn [0xAA] true with peerConnectionId := some [0xBB] }
      ("l", 1) ⟨.handshake, [0xAA], [0xCC]⟩ [] ("p", 2) []).peerConnectionId =
      ({ initConn [0xAA] true with
          peerConnectionId := some [0xBB] } : ConnState).peerConnectionId ∧
    (serverAcceptInitial [0xAA] [0xCC] ("l", 1) ("p", 2) []).peerConnectionId =
      some [0xCC] := by
  refine ⟨?_, ?_⟩
  · exact c9_peer_cid_amended.2.1 _ ("l", 1) ⟨.handshake, [0xAA], [0xCC]⟩ [] ("p", 2)
      [] (Or.inl (by simp))
  · exact c9_peer_cid_amended.2.2 [0xAA] [0xCC] ("l", 1) ("p", 2) []

end PCM
